import Mathlib

/-!
Verification of the constraint registry adapter of `pytfa/optim/constraints.py`.

The module declares `GenericConstraint` and its subclasses: adapters that wrap
one named row of an external optimization problem.  We shallowly embed the
relevant pieces:

* the external problem (`Model`) carries its constraint collection, a mapping
  from name to row; Python dict semantics are embedded as an association list
  with keyed lookup, membership and in-place update;
* a backend constraint row (`Row`) records the name, the expression and the
  backend keyword options with which the factory `model.problem.Constraint`
  was called;
* the class hierarchy is embedded as a tag (`Kind`) selecting the overridden
  `make_name`, together with an `Owner` recording which attribute the instance
  carries (`self.reaction`, `self.metabolite`, or none), through which the
  `id` property dispatches;
* object mutation becomes explicit state passing: `GenericConstraint.init`
  (Python `__init__` followed by `get_interface`) returns the adapter together
  with the updated problem, and the `expr` setter returns the updated problem.

Expressions are an arbitrary type `α`: the backend stores them unmodified.
-/

/-- Backend-specific keyword options (`kwargs`) handed to the constraint
factory on creation. -/
abbrev Options : Type := List (String × Nat)

/-- A constraint row owned by the external problem: what
`model.problem.Constraint(expression=…, name=…, **kwargs)` builds. -/
structure Row (α : Type) where
  name : String
  expression : α
  options : Options
  deriving DecidableEq

/-- The external problem object, reduced to its constraint collection: a
mapping from constraint name to row, with Python dict semantics. -/
structure Model (α : Type) where
  constraints : List (String × Row α)
  deriving DecidableEq

/-- Keyed lookup in the constraint collection (`model.constraints[name]` /
`.get(name)`): first binding of the key, `none` when absent. -/
def lookupCons {α : Type} (cs : List (String × Row α)) (n : String) : Option (Row α) :=
  match cs with
  | [] => none
  | (k, r) :: rest => if k = n then some r else lookupCons rest n

/-- Membership test (`name in model.constraints`). -/
def memCons {α : Type} (cs : List (String × Row α)) (n : String) : Bool :=
  (lookupCons cs n).isSome

/-- Keyed update (`model.constraints[name] = value`): replaces the binding in
place when the key is present, appends it when absent. -/
def setCons {α : Type} (cs : List (String × Row α)) (n : String) (v : Row α) :
    List (String × Row α) :=
  match cs with
  | [] => [(n, v)]
  | (k, r) :: rest => if k = n then (k, v) :: rest else (k, r) :: setCons rest n v

/-- Number of rows stored under a given name (a dict keeps it at most 1; the
association list makes the invariant explicit). -/
def countName {α : Type} (cs : List (String × Row α)) (n : String) : Nat :=
  match cs with
  | [] => 0
  | (k, _) :: rest => (if k = n then 1 else 0) + countName rest n

/-- Keyed lookup on the problem (`self.model.constraints[self.name]`). -/
def Model.constraintsGet {α : Type} (m : Model α) (n : String) : Option (Row α) :=
  lookupCons m.constraints n

/-- Keyed assignment on the problem (`self.model.constraints[self.name] = value`). -/
def Model.constraintsSet {α : Type} (m : Model α) (n : String) (r : Row α) : Model α :=
  ⟨setCons m.constraints n r⟩

/-- Registration of a freshly built row (`self.model.add_cons_vars(constraint)`). -/
def Model.add_cons_vars {α : Type} (m : Model α) (r : Row α) : Model α :=
  ⟨m.constraints ++ [(r.name, r)]⟩

/-- The backend constraint factory
(`self.model.problem.Constraint(expression=expr, name=self.name, **self.kwargs)`). -/
def Model.problemConstraint {α : Type} (expr : α) (name : String) (kwargs : Options) : Row α :=
  ⟨name, expr, kwargs⟩

/-- The concrete subclasses of `GenericConstraint`, each overriding `make_name`. -/
inductive Kind where
  | genericConstraint
  | negativeDeltaG
  | forwardDeltaGCoupling
  | backwardDeltaGCoupling
  | forwardDirectionCoupling
  | backwardDirectionCoupling
  | simultaneousUse
  | displacementCoupling
  | forbiddenProfile
  deriving DecidableEq

/-- The `make_name` override of each subclass: `'G_' + self.id`,
`'FU_' + self.id`, …; the base class returns `self.id` unprefixed. -/
def make_name (k : Kind) (id : String) : String :=
  match k with
  | .genericConstraint => id
  | .negativeDeltaG => "G_" ++ id
  | .forwardDeltaGCoupling => "FU_" ++ id
  | .backwardDeltaGCoupling => "BU_" ++ id
  | .forwardDirectionCoupling => "UF_" ++ id
  | .backwardDirectionCoupling => "UR_" ++ id
  | .simultaneousUse => "SU_" ++ id
  | .displacementCoupling => "DC_" ++ id
  | .forbiddenProfile => "FP_" ++ id

/-- A reaction entity: a stable identifier and a back-reference to its model. -/
structure Reaction (α : Type) where
  id : String
  model : Model α
  deriving DecidableEq

/-- A metabolite entity: a stable identifier and a back-reference to its model. -/
structure Metabolite (α : Type) where
  id : String
  model : Model α
  deriving DecidableEq

/-- The owner attribute an adapter instance carries: `ReactionConstraint`
stores `self.reaction`, `MetaboliteConstraint` stores `self.metabolite`, and a
problem-level adapter (base class, `ForbiddenProfile`) stores neither. -/
inductive Owner (α : Type) where
  | problem
  | ofReaction (r : Reaction α)
  | ofMetabolite (mb : Metabolite α)
  deriving DecidableEq

/-- An adapter instance: its class tag, its owner attribute, and the fields
assigned by `GenericConstraint.__init__` (`self._id`, `self.kwargs`,
`self._name`).  The problem is passed explicitly to each operation rather
than aliased through `self._model`. -/
structure GenericConstraint (α : Type) where
  kind : Kind
  owner : Owner α
  _id : String
  kwargs : Options
  _name : String
  deriving DecidableEq

/-- The `id` property: the base class returns `self._id`; `ReactionConstraint`
overrides it to `self.reaction.id` and `MetaboliteConstraint` to
`self.metabolite.id`. -/
def GenericConstraint.id {α : Type} (c : GenericConstraint α) : String :=
  match c.owner with
  | .problem => c._id
  | .ofReaction r => r.id
  | .ofMetabolite mb => mb.id

/-- The `name` property getter: returns `self._name`. -/
def GenericConstraint.name {α : Type} (c : GenericConstraint α) : String :=
  c._name

/-- The `name` property setter: `self._name = value`. -/
def GenericConstraint.nameSet {α : Type} (c : GenericConstraint α) (value : String) :
    GenericConstraint α :=
  { c with _name := value }

/-- The `constraint` property getter: a fresh keyed lookup
`self.model.constraints[self.name]`; `none` embeds the missing-key error. -/
def GenericConstraint.constraint {α : Type} (c : GenericConstraint α) (m : Model α) :
    Option (Row α) :=
  m.constraintsGet c.name

/-- The `expr` property getter: `self.constraint.expression` (propagating the
missing-key error of the `constraint` lookup). -/
def GenericConstraint.expr {α : Type} (c : GenericConstraint α) (m : Model α) : Option α :=
  (c.constraint m).map Row.expression

/-- The `expr` property setter: `self.constraint.expression = value` — looks
the live row up and mutates its expression in the problem. -/
def GenericConstraint.exprSet {α : Type} (c : GenericConstraint α) (m : Model α) (value : α) :
    Option (Model α) :=
  match c.constraint m with
  | none => none
  | some r => some (m.constraintsSet c.name { r with expression := value })

/-- `get_interface(self, expr)`: if the name is not yet a key of the problem's
constraint collection, build a row with the factory and register it; otherwise
execute `self.constraint = self.model.constraints.get(self.name)`, which
re-assigns the found row to its own key. -/
def get_interface {α : Type} (name : String) (kwargs : Options) (expr : α) (m : Model α) :
    Model α :=
  if memCons m.constraints name = false then
    m.add_cons_vars (Model.problemConstraint expr name kwargs)
  else
    match m.constraintsGet name with
    | some r => m.constraintsSet name r
    | none => m

/-- `GenericConstraint.__init__(self, id, expr, model, **kwargs)` followed by
the `get_interface(expr)` call it ends with: stores `self._id`, `self.kwargs`,
computes `self._name = self.make_name()` and registers against the problem.
The owner attribute is set by the subclass before the base `__init__` runs. -/
def GenericConstraint.init {α : Type} (kind : Kind) (owner : Owner α) (id : String)
    (expr : α) (model : Model α) (kwargs : Options) : GenericConstraint α × Model α :=
  let name := make_name kind id
  (⟨kind, owner, id, kwargs, name⟩, get_interface name kwargs expr model)

/-- `ReactionConstraint.__init__(self, reaction, expr, **kwargs)`: stores
`self.reaction`, then calls the base `__init__` with `id=self.id`
(= `reaction.id`) and `model = reaction.model`. -/
def ReactionConstraint.init {α : Type} (kind : Kind) (reaction : Reaction α) (expr : α)
    (kwargs : Options) : GenericConstraint α × Model α :=
  GenericConstraint.init kind (Owner.ofReaction reaction) reaction.id expr reaction.model kwargs

/-- `MetaboliteConstraint.__init__(self, metabolite, expr, **kwargs)`: stores
`self.metabolite`, then calls the base `__init__` with `id=self.id`
(= `metabolite.id`) and `model = metabolite.model`. -/
def MetaboliteConstraint.init {α : Type} (kind : Kind) (metabolite : Metabolite α) (expr : α)
    (kwargs : Options) : GenericConstraint α × Model α :=
  GenericConstraint.init kind (Owner.ofMetabolite metabolite) metabolite.id expr
    metabolite.model kwargs

/-- `NegativeDeltaG(reaction, expr, **kwargs)`. -/
def NegativeDeltaG.init {α : Type} (reaction : Reaction α) (expr : α) (kwargs : Options) :
    GenericConstraint α × Model α :=
  ReactionConstraint.init Kind.negativeDeltaG reaction expr kwargs

/-- `ForwardDeltaGCoupling(reaction, expr, **kwargs)`. -/
def ForwardDeltaGCoupling.init {α : Type} (reaction : Reaction α) (expr : α) (kwargs : Options) :
    GenericConstraint α × Model α :=
  ReactionConstraint.init Kind.forwardDeltaGCoupling reaction expr kwargs

/-- `BackwardDeltaGCoupling(reaction, expr, **kwargs)`. -/
def BackwardDeltaGCoupling.init {α : Type} (reaction : Reaction α) (expr : α) (kwargs : Options) :
    GenericConstraint α × Model α :=
  ReactionConstraint.init Kind.backwardDeltaGCoupling reaction expr kwargs

/-- `ForwardDirectionCoupling(reaction, expr, **kwargs)`. -/
def ForwardDirectionCoupling.init {α : Type} (reaction : Reaction α) (expr : α)
    (kwargs : Options) : GenericConstraint α × Model α :=
  ReactionConstraint.init Kind.forwardDirectionCoupling reaction expr kwargs

/-- `BackwardDirectionCoupling(reaction, expr, **kwargs)`. -/
def BackwardDirectionCoupling.init {α : Type} (reaction : Reaction α) (expr : α)
    (kwargs : Options) : GenericConstraint α × Model α :=
  ReactionConstraint.init Kind.backwardDirectionCoupling reaction expr kwargs

/-- `SimultaneousUse(reaction, expr, **kwargs)`. -/
def SimultaneousUse.init {α : Type} (reaction : Reaction α) (expr : α) (kwargs : Options) :
    GenericConstraint α × Model α :=
  ReactionConstraint.init Kind.simultaneousUse reaction expr kwargs

/-- `DisplacementCoupling(reaction, expr, **kwargs)`. -/
def DisplacementCoupling.init {α : Type} (reaction : Reaction α) (expr : α) (kwargs : Options) :
    GenericConstraint α × Model α :=
  ReactionConstraint.init Kind.displacementCoupling reaction expr kwargs

/-- `ForbiddenProfile(model, expr, id, **kwargs)`: problem-level, calls the
base `__init__` directly with the caller-supplied `id` and `model`. -/
def ForbiddenProfile.init {α : Type} (model : Model α) (expr : α) (id : String)
    (kwargs : Options) : GenericConstraint α × Model α :=
  GenericConstraint.init Kind.forbiddenProfile Owner.problem id expr model kwargs

/-! ## Helper lemmas about the dict operations -/

/-- Re-assigning a key to the very row the lookup found leaves the collection
unchanged (the present branch of `get_interface` is a no-op on the dict). -/
theorem setCons_eq_of_lookup {α : Type} (cs : List (String × Row α)) (n : String) (r : Row α)
    (h : lookupCons cs n = some r) : setCons cs n r = cs := by
  induction cs with
  | nil => simp [lookupCons] at h
  | cons p rest ih =>
    obtain ⟨k, v⟩ := p
    by_cases hk : k = n
    · simp [lookupCons, hk] at h
      simp [setCons, hk, h]
    · simp [lookupCons, hk] at h
      simp [setCons, hk, ih h]

/-- Closed form of `get_interface`: register a fresh row when the name is
absent, leave the collection untouched when it is present. -/
theorem geti_spec {α : Type} (n : String) (kw : Options) (e : α) (m : Model α) :
    get_interface n kw e m =
      if memCons m.constraints n = true then m
      else ⟨m.constraints ++ [(n, ⟨n, e, kw⟩)]⟩ := by
  unfold get_interface
  cases h : memCons m.constraints n with
  | false => simp [h, Model.add_cons_vars, Model.problemConstraint]
  | true =>
    have h' : (lookupCons m.constraints n).isSome = true := h
    cases hl : lookupCons m.constraints n with
    | none => simp [hl] at h'
    | some r =>
      simp [h, Model.constraintsGet, hl, Model.constraintsSet, setCons_eq_of_lookup _ _ _ hl]

/-- A name is absent from the collection iff it heads zero rows. -/
theorem lookupCons_eq_none_iff {α : Type} (cs : List (String × Row α)) (n : String) :
    lookupCons cs n = none ↔ countName cs n = 0 := by
  induction cs with
  | nil => simp [lookupCons, countName]
  | cons p rest ih =>
    obtain ⟨k, r⟩ := p
    by_cases hk : k = n
    · simp [lookupCons, countName, hk]
    · simp [lookupCons, countName, hk, ih]

/-- A present name heads at least one row. -/
theorem count_pos_of_mem {α : Type} (cs : List (String × Row α)) (n : String)
    (h : memCons cs n = true) : 1 ≤ countName cs n := by
  rcases Nat.eq_zero_or_pos (countName cs n) with h0 | h1
  · rw [← lookupCons_eq_none_iff] at h0
    simp [memCons, h0] at h
  · exact h1

/-- An absent name heads zero rows. -/
theorem count_zero_of_not_mem {α : Type} (cs : List (String × Row α)) (n : String)
    (h : memCons cs n = false) : countName cs n = 0 := by
  rw [← lookupCons_eq_none_iff]
  cases hl : lookupCons cs n with
  | none => rfl
  | some r => simp [memCons, hl] at h

/-- Row counts add over concatenation of collections. -/
theorem countName_append {α : Type} (cs ds : List (String × Row α)) (n : String) :
    countName (cs ++ ds) n = countName cs n + countName ds n := by
  induction cs with
  | nil => simp [countName]
  | cons p rest ih =>
    obtain ⟨k, r⟩ := p
    simp [countName, ih]
    omega

/-- Looking a name up after appending a row under that very name finds the
appended row, provided the name was absent before. -/
theorem lookupCons_append_self {α : Type} (cs : List (String × Row α)) (n : String) (r : Row α)
    (h : lookupCons cs n = none) : lookupCons (cs ++ [(n, r)]) n = some r := by
  induction cs with
  | nil => simp [lookupCons]
  | cons p rest ih =>
    obtain ⟨k, v⟩ := p
    by_cases hk : k = n
    · simp [lookupCons, hk] at h
    · simp [lookupCons, hk] at h ⊢
      exact ih h

/-- After a keyed update the lookup of that key returns the assigned row. -/
theorem lookupCons_setCons_self {α : Type} (cs : List (String × Row α)) (n : String)
    (v : Row α) : lookupCons (setCons cs n v) n = some v := by
  induction cs with
  | nil => simp [setCons, lookupCons]
  | cons p rest ih =>
    obtain ⟨k, r⟩ := p
    by_cases hk : k = n
    · simp [setCons, lookupCons, hk]
    · simp [setCons, lookupCons, hk, ih]

/-- Whatever the branch, `get_interface` leaves the target name present in the
problem's constraint collection. -/
theorem mem_after_geti {α : Type} (n : String) (kw : Options) (e : α) (m : Model α) :
    memCons (get_interface n kw e m).constraints n = true := by
  rw [geti_spec]
  cases h : memCons m.constraints n with
  | true => simp [h]
  | false =>
    have hl : lookupCons m.constraints n = none := by
      cases hl : lookupCons m.constraints n with
      | none => rfl
      | some r => simp [memCons, hl] at h
    simp [h, memCons, lookupCons_append_self _ _ _ hl]

/-! ## Claim theorems -/

/-- C2: for every valid identifier the constructed adapter's `name` is the
subtype's fixed prefix literally concatenated with the identifier
(`G_`, `FU_`, `BU_`, `UF_`, `UR_`, `SU_`, `DC_`, `FP_`), with no collision
avoidance: identifier `"FU_x"` for `ForwardDeltaGCoupling` yields
`"FU_FU_x"`, and `ForwardDeltaGCoupling` of reaction `R1` yields `"FU_R1"`,
registered under that key in the problem. -/
theorem make_name_concat (α : Type) :
    (∀ i : String, make_name Kind.negativeDeltaG i = "G_" ++ i) ∧
    (∀ i : String, make_name Kind.forwardDeltaGCoupling i = "FU_" ++ i) ∧
    (∀ i : String, make_name Kind.backwardDeltaGCoupling i = "BU_" ++ i) ∧
    (∀ i : String, make_name Kind.forwardDirectionCoupling i = "UF_" ++ i) ∧
    (∀ i : String, make_name Kind.backwardDirectionCoupling i = "UR_" ++ i) ∧
    (∀ i : String, make_name Kind.simultaneousUse i = "SU_" ++ i) ∧
    (∀ i : String, make_name Kind.displacementCoupling i = "DC_" ++ i) ∧
    (∀ i : String, make_name Kind.forbiddenProfile i = "FP_" ++ i) ∧
    (∀ (k : Kind) (o : Owner α) (i : String) (e : α) (m : Model α) (kw : Options),
      (GenericConstraint.init k o i e m kw).1.name = make_name k i) ∧
    (∀ (M : Model α) (e : α) (kw : Options),
      (ForwardDeltaGCoupling.init ⟨"FU_x", M⟩ e kw).1.name = "FU_FU_x") ∧
    (∀ (M : Model α) (e : α) (kw : Options),
      (ForwardDeltaGCoupling.init ⟨"R1", M⟩ e kw).1.name = "FU_R1" ∧
      memCons (ForwardDeltaGCoupling.init ⟨"R1", M⟩ e kw).2.constraints "FU_R1" = true) := by
  refine ⟨fun i => rfl, fun i => rfl, fun i => rfl, fun i => rfl, fun i => rfl, fun i => rfl,
    fun i => rfl, fun i => rfl, fun k o i e m kw => rfl, fun M e kw => rfl,
    fun M e kw => ⟨rfl, ?_⟩⟩
  exact mem_after_geti "FU_R1" kw e M

/-- C3: construction mutates the problem's constraint collection exactly when
the derived name is absent: a fresh row built from the supplied expression,
name and backend options is appended when absent, and the collection is left
unchanged when present. -/
theorem init_mutates_iff_absent (α : Type) (k : Kind) (o : Owner α) (i : String) (e : α)
    (m : Model α) (kw : Options) :
    (GenericConstraint.init k o i e m kw).2 =
      if memCons m.constraints (make_name k i) = true then m
      else ⟨m.constraints ++ [(make_name k i, ⟨make_name k i, e, kw⟩)]⟩ :=
  geti_spec (make_name k i) kw e m

/-- C5: a reaction-bound adapter's `identifier` is the owning reaction's
identifier and its problem is the owning reaction's parent problem, and
likewise for a metabolite-bound adapter; both are derived from the owner by
property dispatch, not stored independently. -/
theorem owner_derivation (α : Type) :
    (∀ (k : Kind) (r : Reaction α) (e : α) (kw : Options),
      (ReactionConstraint.init k r e kw).1.id = r.id ∧
      (ReactionConstraint.init k r e kw).2 = get_interface (make_name k r.id) kw e r.model) ∧
    (∀ (k : Kind) (mb : Metabolite α) (e : α) (kw : Options),
      (MetaboliteConstraint.init k mb e kw).1.id = mb.id ∧
      (MetaboliteConstraint.init k mb e kw).2 =
        get_interface (make_name k mb.id) kw e mb.model) ∧
    (∀ (a : GenericConstraint α) (r : Reaction α),
      ({ a with owner := Owner.ofReaction r }).id = r.id) ∧
    (∀ (a : GenericConstraint α) (mb : Metabolite α),
      ({ a with owner := Owner.ofMetabolite mb }).id = mb.id) :=
  ⟨fun _ _ _ _ => ⟨rfl, rfl⟩, fun _ _ _ _ => ⟨rfl, rfl⟩,
    fun _ _ => rfl, fun _ _ => rfl⟩

/-- C7: `name` is a pure function of the identifier and the fixed subtype
prefix, computed once at construction; the `name` getter reads the stored
field only, so a later change of the owner's identifier does not affect an
already-constructed adapter's `name`, and only the explicit `name` setter
alters it. -/
theorem name_stable (α : Type) :
    (∀ (k : Kind) (o : Owner α) (i : String) (e : α) (m : Model α) (kw : Options),
      (GenericConstraint.init k o i e m kw).1.name = make_name k i) ∧
    (∀ (a : GenericConstraint α) (r : Reaction α),
      ({ a with owner := Owner.ofReaction r }).name = a.name) ∧
    (∀ (a : GenericConstraint α) (mb : Metabolite α),
      ({ a with owner := Owner.ofMetabolite mb }).name = a.name) ∧
    (∀ (a : GenericConstraint α) (v : String), (a.nameSet v).name = v) :=
  ⟨fun _ _ _ _ _ _ => rfl, fun _ _ => rfl, fun _ _ => rfl, fun _ _ => rfl⟩

/-- C8: `ForbiddenProfile` is problem-level: it takes the caller-supplied
identifier, carries no entity owner, names the row `FP_` + identifier, and
registers it in the given problem; with identifier `"profile_1"` the name is
`"FP_profile_1"`. -/
theorem forbidden_profile_problem_level (α : Type) (M : Model α) (e : α) (i : String)
    (kw : Options) :
    (ForbiddenProfile.init M e i kw).1.name = "FP_" ++ i ∧
    (ForbiddenProfile.init M e i kw).1.owner = Owner.problem ∧
    memCons (ForbiddenProfile.init M e i kw).2.constraints ("FP_" ++ i) = true ∧
    (ForbiddenProfile.init M e "profile_1" kw).1.name = "FP_profile_1" :=
  ⟨rfl, rfl, mem_after_geti ("FP_" ++ i) kw e M, rfl⟩

/-- C10: `constraint` and `expr` perform a fresh keyed lookup with the current
`name`: after the caller reassigns `name` to `v`, both resolve against the
row keyed `v` in the problem, returning the missing-key error (`none`) when
no such row exists. -/
theorem fresh_lookup_by_current_name (α : Type) (a : GenericConstraint α) (m : Model α)
    (v : String) :
    (a.nameSet v).name = v ∧
    (a.nameSet v).constraint m = lookupCons m.constraints v ∧
    (a.nameSet v).expr m = (lookupCons m.constraints v).map Row.expression :=
  ⟨rfl, rfl, rfl⟩

/-- C1: construction is idempotent — constructing two adapters of the same
subtype with the same owner identifier against the same problem leaves
exactly one row under the derived name in the problem's constraint
collection, and the second adapter's `constraint` resolves to the same row
as the first.  The hypothesis states the dict invariant: the problem holds
at most one row under the derived name before construction. -/
theorem construct_idempotent (α : Type) (P : Model α) (S : Kind) (o1 o2 : Owner α)
    (i : String) (e1 e2 : α) (kw1 kw2 : Options)
    (hP : countName P.constraints (make_name S i) ≤ 1) :
    (GenericConstraint.init S o2 i e2 (GenericConstraint.init S o1 i e1 P kw1).2 kw2).2
      = (GenericConstraint.init S o1 i e1 P kw1).2 ∧
    countName (GenericConstraint.init S o1 i e1 P kw1).2.constraints (make_name S i) = 1 ∧
    (GenericConstraint.init S o2 i e2 (GenericConstraint.init S o1 i e1 P kw1).2 kw2).1.constraint
        (GenericConstraint.init S o2 i e2 (GenericConstraint.init S o1 i e1 P kw1).2 kw2).2
      = (GenericConstraint.init S o1 i e1 P kw1).1.constraint
          (GenericConstraint.init S o1 i e1 P kw1).2 ∧
    ((GenericConstraint.init S o1 i e1 P kw1).1.constraint
        (GenericConstraint.init S o1 i e1 P kw1).2).isSome = true := by
  have h1 : (GenericConstraint.init S o1 i e1 P kw1).2
      = get_interface (make_name S i) kw1 e1 P := rfl
  have hmem1 : memCons (GenericConstraint.init S o1 i e1 P kw1).2.constraints
      (make_name S i) = true := by
    rw [h1]; exact mem_after_geti _ _ _ _
  have h2 : (GenericConstraint.init S o2 i e2 (GenericConstraint.init S o1 i e1 P kw1).2 kw2).2
      = (GenericConstraint.init S o1 i e1 P kw1).2 := by
    have hs : (GenericConstraint.init S o2 i e2
          (GenericConstraint.init S o1 i e1 P kw1).2 kw2).2
        = get_interface (make_name S i) kw2 e2 (GenericConstraint.init S o1 i e1 P kw1).2 := rfl
    rw [hs, geti_spec, if_pos hmem1]
  have hcount : countName (GenericConstraint.init S o1 i e1 P kw1).2.constraints
      (make_name S i) = 1 := by
    rw [h1, geti_spec]
    by_cases hm : memCons P.constraints (make_name S i) = true
    · rw [if_pos hm]
      have := count_pos_of_mem P.constraints (make_name S i) hm
      omega
    · rw [if_neg hm]
      have hm' : memCons P.constraints (make_name S i) = false := by simpa using hm
      have h0 := count_zero_of_not_mem P.constraints (make_name S i) hm'
      simp [countName_append, h0, countName]
  refine ⟨h2, hcount, ?_, hmem1⟩
  rw [h2]
  rfl

/-- Witness for C1: empty problem, `ForwardDeltaGCoupling`, identifier `R1`,
two different expressions. -/
theorem construct_idempotent_witness :
    countName (Model.mk ([] : List (String × Row Nat))).constraints
        (make_name Kind.forwardDeltaGCoupling "R1") ≤ 1 ∧
    ((GenericConstraint.init Kind.forwardDeltaGCoupling (Owner.problem : Owner Nat) "R1" 7
        (GenericConstraint.init Kind.forwardDeltaGCoupling Owner.problem "R1" 5 ⟨[]⟩ []).2 []).2
      = (GenericConstraint.init Kind.forwardDeltaGCoupling Owner.problem "R1" 5 ⟨[]⟩ []).2 ∧
     countName (GenericConstraint.init Kind.forwardDeltaGCoupling (Owner.problem : Owner Nat)
          "R1" 5 ⟨[]⟩ []).2.constraints (make_name Kind.forwardDeltaGCoupling "R1") = 1) :=
  ⟨by decide,
   (construct_idempotent Nat ⟨[]⟩ Kind.forwardDeltaGCoupling Owner.problem Owner.problem
      "R1" 5 7 [] [] (by decide)).1,
   (construct_idempotent Nat ⟨[]⟩ Kind.forwardDeltaGCoupling Owner.problem Owner.problem
      "R1" 5 7 [] [] (by decide)).2.1⟩

/-- C4: when the derived name already keys a row of the problem, construction
raises no error, the adapter binds to the existing row, and the supplied
expression is discarded: the resolved row is the pre-existing one, whatever
expression was supplied. -/
theorem duplicate_reuse_discards_expr (α : Type) (k : Kind) (o : Owner α) (i : String)
    (E : α) (kw : Options) (P : Model α) (r : Row α)
    (h : lookupCons P.constraints (make_name k i) = some r) :
    (GenericConstraint.init k o i E P kw).2 = P ∧
    (GenericConstraint.init k o i E P kw).1.constraint
      (GenericConstraint.init k o i E P kw).2 = some r := by
  have hm : memCons P.constraints (make_name k i) = true := by simp [memCons, h]
  have h2 : (GenericConstraint.init k o i E P kw).2 = P := by
    have hs : (GenericConstraint.init k o i E P kw).2
        = get_interface (make_name k i) kw E P := rfl
    rw [hs, geti_spec, if_pos hm]
  refine ⟨h2, ?_⟩
  rw [h2]
  exact h

/-- Witness for C4: a problem already holding `FU_R1` with expression `3`;
constructing with expression `99` binds to the row holding `3`. -/
theorem duplicate_reuse_discards_expr_witness :
    lookupCons (Model.mk [("FU_R1", (⟨"FU_R1", 3, []⟩ : Row Nat))]).constraints
        (make_name Kind.forwardDeltaGCoupling "R1") = some ⟨"FU_R1", 3, []⟩ ∧
    ((GenericConstraint.init Kind.forwardDeltaGCoupling (Owner.problem : Owner Nat) "R1" 99
        (Model.mk [("FU_R1", ⟨"FU_R1", 3, []⟩)]) []).2
      = Model.mk [("FU_R1", ⟨"FU_R1", 3, []⟩)] ∧
     (GenericConstraint.init Kind.forwardDeltaGCoupling (Owner.problem : Owner Nat) "R1" 99
         (Model.mk [("FU_R1", ⟨"FU_R1", 3, []⟩)]) []).1.constraint
       (GenericConstraint.init Kind.forwardDeltaGCoupling (Owner.problem : Owner Nat) "R1" 99
         (Model.mk [("FU_R1", ⟨"FU_R1", 3, []⟩)]) []).2 = some ⟨"FU_R1", 3, []⟩) :=
  ⟨by decide,
   duplicate_reuse_discards_expr Nat Kind.forwardDeltaGCoupling Owner.problem "R1" 99 []
     (Model.mk [("FU_R1", ⟨"FU_R1", 3, []⟩)]) ⟨"FU_R1", 3, []⟩ (by decide)⟩

/-- C9: on the already-exists path the backend keyword options are discarded
as well — the resulting problem does not depend on the supplied options (or
expression), and the stored row keeps its original options untouched. -/
theorem duplicate_discards_kwargs (α : Type) (k : Kind) (o1 o2 : Owner α) (i : String)
    (E1 E2 : α) (kw1 kw2 : Options) (P : Model α) (r : Row α)
    (h : lookupCons P.constraints (make_name k i) = some r) :
    (GenericConstraint.init k o1 i E1 P kw1).2 = (GenericConstraint.init k o2 i E2 P kw2).2 ∧
    lookupCons (GenericConstraint.init k o1 i E1 P kw1).2.constraints (make_name k i)
      = some r := by
  have hm : memCons P.constraints (make_name k i) = true := by simp [memCons, h]
  have hA : (GenericConstraint.init k o1 i E1 P kw1).2 = P := by
    have hs : (GenericConstraint.init k o1 i E1 P kw1).2
        = get_interface (make_name k i) kw1 E1 P := rfl
    rw [hs, geti_spec, if_pos hm]
  have hB : (GenericConstraint.init k o2 i E2 P kw2).2 = P := by
    have hs : (GenericConstraint.init k o2 i E2 P kw2).2
        = get_interface (make_name k i) kw2 E2 P := rfl
    rw [hs, geti_spec, if_pos hm]
  exact ⟨hA.trans hB.symm, by rw [hA]; exact h⟩

/-- Witness for C9: a problem already holding `FU_R1` with options
`[("lb", 0)]`; two further constructions with differing options and
expressions yield the same problem, and the row keeps `[("lb", 0)]`. -/
theorem duplicate_discards_kwargs_witness :
    lookupCons (Model.mk [("FU_R1", (⟨"FU_R1", 3, [("lb", 0)]⟩ : Row Nat))]).constraints
        (make_name Kind.forwardDeltaGCoupling "R1") = some ⟨"FU_R1", 3, [("lb", 0)]⟩ ∧
    ((GenericConstraint.init Kind.forwardDeltaGCoupling (Owner.problem : Owner Nat) "R1" 99
        (Model.mk [("FU_R1", ⟨"FU_R1", 3, [("lb", 0)]⟩)]) [("ub", 1)]).2
      = (GenericConstraint.init Kind.forwardDeltaGCoupling (Owner.problem : Owner Nat) "R1" 42
        (Model.mk [("FU_R1", ⟨"FU_R1", 3, [("lb", 0)]⟩)]) [("ub", 7)]).2 ∧
     lookupCons (GenericConstraint.init Kind.forwardDeltaGCoupling (Owner.problem : Owner Nat)
          "R1" 99 (Model.mk [("FU_R1", ⟨"FU_R1", 3, [("lb", 0)]⟩)]) [("ub", 1)]).2.constraints
        (make_name Kind.forwardDeltaGCoupling "R1") = some ⟨"FU_R1", 3, [("lb", 0)]⟩) :=
  ⟨by decide,
   duplicate_discards_kwargs Nat Kind.forwardDeltaGCoupling Owner.problem Owner.problem "R1"
     99 42 [("ub", 1)] [("ub", 7)] (Model.mk [("FU_R1", ⟨"FU_R1", 3, [("lb", 0)]⟩)])
     ⟨"FU_R1", 3, [("lb", 0)]⟩ (by decide)⟩

/-- C6: `expr` is a pure pass-through to the live row with no local caching,
and it round-trips: for a registered adapter, setting the expression to `E`
then reading it back returns `E` (the backend row stores assignments
unmodified). -/
theorem expr_roundtrip (α : Type) (a : GenericConstraint α) (m : Model α) (r : Row α) (E : α)
    (h : a.constraint m = some r) :
    a.expr m = (a.constraint m).map Row.expression ∧
    ∃ m', a.exprSet m E = some m' ∧ a.expr m' = some E := by
  refine ⟨rfl, m.constraintsSet a.name { r with expression := E }, ?_, ?_⟩
  · simp [GenericConstraint.exprSet, h]
  · simp [GenericConstraint.expr, GenericConstraint.constraint, Model.constraintsGet,
      Model.constraintsSet, lookupCons_setCons_self]

/-- Witness for C6: a registered adapter over a one-row problem; assigning
expression `42` and reading it back returns `42`. -/
theorem expr_roundtrip_witness :
    GenericConstraint.constraint
        (GenericConstraint.mk Kind.genericConstraint (Owner.problem : Owner Nat) "x" [] "x")
        (Model.mk [("x", ⟨"x", 0, []⟩)]) = some ⟨"x", 0, []⟩ ∧
    (GenericConstraint.expr
        (GenericConstraint.mk Kind.genericConstraint (Owner.problem : Owner Nat) "x" [] "x")
        (Model.mk [("x", ⟨"x", 0, []⟩)])
      = (GenericConstraint.constraint
          (GenericConstraint.mk Kind.genericConstraint (Owner.problem : Owner Nat) "x" [] "x")
          (Model.mk [("x", ⟨"x", 0, []⟩)])).map Row.expression ∧
     ∃ m', GenericConstraint.exprSet
         (GenericConstraint.mk Kind.genericConstraint (Owner.problem : Owner Nat) "x" [] "x")
         (Model.mk [("x", ⟨"x", 0, []⟩)]) 42 = some m' ∧
       GenericConstraint.expr
         (GenericConstraint.mk Kind.genericConstraint (Owner.problem : Owner Nat) "x" [] "x")
         m' = some (42 : Nat)) :=
  ⟨by decide,
   expr_roundtrip Nat
     (GenericConstraint.mk Kind.genericConstraint Owner.problem "x" [] "x")
     (Model.mk [("x", ⟨"x", 0, []⟩)]) ⟨"x", 0, []⟩ 42 (by decide)⟩
